import Mathlib

/-!
Verification of the zone2 cardiac-drift analyzer.

The program (src/zone2-analyzer.py) estimates cardiac drift from a workout
time series: it buckets speeds into 0.5 km/h bins, compares mean heart rate
per bucket between the second and fourth quarter of the workout, filters
buckets by a 95% confidence-interval reliability gate, and turns the
resulting drift table into a duration-progression decision that is appended
to a JSON history file.

Embedding notes:
* Numeric values (heart rates, speeds, drift statistics) are modelled as
  rationals; the Python source computes with IEEE floats.  The thresholds
  of the program (3.0, 4.0, 5.0, 6.0, 8.0, 1.0, 25) are exactly
  representable, so the comparison logic is faithfully captured.
* `scipy.stats.t.ppf(0.975, df)` and the square root `x ** 0.5` are
  transcendental / irrational operations; the pipeline is parametrised by
  `tppf : ℕ → ℚ` (the Student-t quantile, as a function of the degrees of
  freedom) and `rsqrt : ℚ → ℚ` (the square root).  Every property proved
  below holds for arbitrary such parameters (with explicitly stated
  assumptions such as `rsqrt 0 = 0`, which holds for the real square root).
* pandas `std()` over a single sample yields NaN, which then fails the
  `< 1` comparison; this is modelled by an `Option ℚ` confidence width
  that is `none` for sample counts below 2.
* The pandas left `join` followed by `dropna()` is modelled directly:
  rows of the second-quarter table whose key is missing from the
  fourth-quarter table are dropped.
-/

namespace Zone2

/-- A sample: the `HR (bpm)` and `Speed (km/h)` columns of one row
(line 27 of the source keeps exactly these two columns). -/
abbrev Sample := ℚ × ℚ

/-- Speed bucketing, line 29: `(speed // 0.5) * 0.5` — floor-division by
0.5 then scaling back. -/
def bucketOf (s : ℚ) : ℚ := (⌊s / (1/2 : ℚ)⌋ : ℚ) * (1/2 : ℚ)

/-- Replace each sample's speed by its bucket (line 29 acts on the whole
table before the quarters are sliced). -/
def binSpeeds (l : List Sample) : List Sample :=
  l.map (fun p => (p.1, bucketOf p.2))

/-- Second-quarter slice, line 31: `iloc[n//4 : n//2]`. -/
def quarter2 (l : List Sample) : List Sample :=
  (l.drop (l.length / 4)).take (l.length / 2 - l.length / 4)

/-- Fourth-quarter slice, line 32: `iloc[3 * n//4 :]` (Python parses this
as `(3*n)//4`). -/
def quarter4 (l : List Sample) : List Sample :=
  l.drop (3 * l.length / 4)

/-- The heart rates of the samples of one bucket inside a quarter
(the `groupby("Speed (km/h)")` group of key `b`). -/
def hrsInBucket (q : List Sample) (b : ℚ) : List ℚ :=
  (q.filter (fun p => decide (p.2 = b))).map Prod.fst

/-- Mean of a list of rationals (pandas `mean`). -/
def listMean (xs : List ℚ) : ℚ := xs.sum / (xs.length : ℚ)

/-- Sample variance with `count - 1` denominator (the square of pandas
`std`, which uses `ddof=1`). -/
def sampleVar (xs : List ℚ) : ℚ :=
  ((xs.map (fun x => (x - listMean xs) ^ 2)).sum) / ((xs.length : ℚ) - 1)

/-- Per-quarter per-bucket aggregate: mean heart rate, sample count and the
full 95% confidence-interval width.  `width = none` models the NaN that
pandas produces for `std()` of fewer than two samples (the t-quantile at
zero degrees of freedom is NaN as well); a NaN width fails the `< 1`
filter, just as `none` fails `passFilter` below. -/
structure QuarterStats where
  mean : ℚ
  count : ℕ
  width : Option ℚ
deriving DecidableEq, Repr

/-- Line 45: `2 * t.ppf(0.975, count-1) * (std / count**0.5)`, with
`std = rsqrt (sampleVar xs)`. -/
def ciWidth (tppf : ℕ → ℚ) (rsqrt : ℚ → ℚ) (xs : List ℚ) : Option ℚ :=
  if 2 ≤ xs.length then
    some (2 * tppf (xs.length - 1) * (rsqrt (sampleVar xs) / rsqrt (xs.length : ℚ)))
  else none

/-- The aggregate of bucket `b` in quarter `q` (lines 37–45); `none` when
the bucket has no samples in the quarter (groupby creates no group). -/
def groupStats (tppf : ℕ → ℚ) (rsqrt : ℚ → ℚ) (q : List Sample) (b : ℚ) :
    Option QuarterStats :=
  let xs := hrsInBucket q b
  if xs.isEmpty then none
  else some ⟨listMean xs, xs.length, ciWidth tppf rsqrt xs⟩

/-- A row surviving the reliability filter: its width is an actual number
(not NaN). -/
structure ReliableStats where
  mean : ℚ
  count : ℕ
  width : ℚ
deriving DecidableEq, Repr

/-- Line 48: keep the row only when `conf_interval_95_width < 1` and
`bin_count > 25` (a NaN width fails the comparison). -/
def passFilter (s : QuarterStats) : Option ReliableStats :=
  match s.width with
  | some w => if w < 1 ∧ 25 < s.count then some ⟨s.mean, s.count, w⟩ else none
  | none => none

/-- Insert into an ascending list (pandas `groupby` returns its group keys
sorted ascending). -/
def insortQ (x : ℚ) : List ℚ → List ℚ
  | [] => [x]
  | y :: ys => if x ≤ y then x :: y :: ys else y :: insortQ x ys

/-- Insertion sort of the bucket keys. -/
def sortQ (l : List ℚ) : List ℚ := l.foldr insortQ []

/-- The distinct bucket keys of a quarter, ascending. -/
def bucketsOf (q : List Sample) : List ℚ := sortQ (q.map Prod.snd).dedup

/-- One quarter's filtered result (lines 37–48): a row per bucket key that
has samples and passes the reliability filter. -/
def quarterTable (tppf : ℕ → ℚ) (rsqrt : ℚ → ℚ) (q : List Sample) :
    List (ℚ × ReliableStats) :=
  (bucketsOf q).filterMap
    (fun b => ((groupStats tppf rsqrt q b).bind passFilter).map (fun s => (b, s)))

/-- Association-list lookup by bucket key. -/
def lookupKey (b : ℚ) : List (ℚ × α) → Option α
  | [] => none
  | p :: ps => if p.1 = b then some p.2 else lookupKey b ps

/-- One row of the final drift table: exactly the four columns kept on
line 57 — `HR drift (BPM)`, `HR drift (%)`, `HR drift CI(95%) width`,
`bin_count`. -/
structure DriftRec where
  drift_bpm : ℚ
  drift_pct : ℚ
  combined_width : ℚ
  combined_count : ℕ
deriving DecidableEq, Repr

/-- Lines 52–55: the drift columns of one merged row. -/
def mergeStats (rsqrt : ℚ → ℚ) (s2 s4 : ReliableStats) : DriftRec :=
  { drift_bpm := s4.mean - s2.mean
    drift_pct := (s4.mean - s2.mean) / s2.mean
    combined_width := rsqrt (s2.width ^ 2 + s4.width ^ 2)
    combined_count := s2.count + s4.count }

/-- The drift estimator, lines 26–58.  The final `join` is a pandas left
join on the second-quarter table followed by `dropna()`: a key of the
second-quarter table missing from the fourth-quarter table produces a row
of NaNs that `dropna()` removes, modelled by the `filterMap`. -/
def calculate_cardiac_drift_in_bins (tppf : ℕ → ℚ) (rsqrt : ℚ → ℚ)
    (workout_data : List Sample) : List (ℚ × DriftRec) :=
  let n := workout_data.length
  let binned := binSpeeds workout_data
  let q2 := (binned.drop (n / 4)).take (n / 2 - n / 4)
  let q4 := binned.drop (3 * n / 4)
  let t2 := quarterTable tppf rsqrt q2
  let t4 := quarterTable tppf rsqrt q4
  t2.filterMap (fun p =>
    (lookupKey p.1 t4).map (fun s4 => (p.1, mergeStats rsqrt p.2 s4)))

/-- Total sample count of the drift table, as a rational
(`drift_results['bin_count'].sum()`). -/
def totalCount (rs : List (ℚ × DriftRec)) : ℚ :=
  (rs.map (fun p => (p.2.combined_count : ℚ))).sum

/-- Line 71: `(drift * (bin_count / bin_count.sum())).sum()`.  When the
table is empty the sum over no rows is `0` — pandas raises no error here
(the division by the zero total is never evaluated on any row). -/
def avgDrift (rs : List (ℚ × DriftRec)) : ℚ :=
  (rs.map (fun p => p.2.drift_bpm * ((p.2.combined_count : ℚ) / totalCount rs))).sum

/-- Round to the nearest integer, ties to even — Python 3 `round` on the
exact value.  (On floats Python rounds the binary value; the difference is
immaterial to every property below, which never depends on rounding.) -/
def roundHalfEven (q : ℚ) : ℤ :=
  let f := ⌊q⌋
  let r := q - (f : ℚ)
  if r < 1/2 then f
  else if 1/2 < r then f + 1
  else if f % 2 = 0 then f else f + 1

/-- `round(x, 1)` of line 106. -/
def round1 (q : ℚ) : ℚ := ((roundHalfEven (10 * q) : ℚ)) / 10

/-- Renders a rational to one decimal place, modelling the `:.1f`
format of the notes strings. -/
def fmt1 (q : ℚ) : String :=
  let n := roundHalfEven (10 * q)
  let sign := if n < 0 then "-" else ""
  sign ++ toString (n.natAbs / 10) ++ "." ++ toString (n.natAbs % 10)

/-- The decision record returned by `generate_workout_decisions`
(lines 103–113). -/
structure Decision where
  date : String
  duration_min : ℤ
  avg_drift_bpm : ℚ
  drift_details : List (ℚ × ℚ × ℕ)
  fitness_category : String
  decision : String
  next_duration_min : ℤ
  paces_analyzed : List ℚ
  notes : String
deriving DecidableEq, Repr

/-- The decision generator, lines 60–113.  Fitness category ladder of
lines 74–83, action ladder of lines 86–101. -/
def generate_workout_decisions (drift_results : List (ℚ × DriftRec))
    (duration_min : ℤ) (date : String) : Decision :=
  let avg_drift := avgDrift drift_results
  let category :=
    if avg_drift < 3 then "Elite"
    else if avg_drift < 4 then "Excellent"
    else if avg_drift < 6 then "Good"
    else if avg_drift < 8 then "Fair"
    else "Poor"
  let (decision, next_duration, notes) :=
    if avg_drift < 3 then
      ("extend much", duration_min + 10,
        "Drift " ++ fmt1 avg_drift ++ " bpm is super good. Ready to add 10 minutes.")
    else if avg_drift ≤ 5 then
      ("extend", duration_min + 5,
        "Drift " ++ fmt1 avg_drift ++ " bpm is good. Ready to add 5 minutes.")
    else if avg_drift ≤ 8 then
      ("maintain", duration_min,
        "Drift " ++ fmt1 avg_drift ++ " bpm. Keep building base at "
          ++ toString duration_min ++ " min.")
    else
      ("reduce", duration_min - 5,
        "Drift " ++ fmt1 avg_drift ++ " bpm is high. Drop to "
          ++ toString (duration_min - 5) ++ " min and rebuild.")
  { date := date
    duration_min := duration_min
    avg_drift_bpm := round1 avg_drift
    drift_details := drift_results.map (fun p => (p.1, p.2.drift_bpm, p.2.combined_count))
    fitness_category := category
    decision := decision
    next_duration_min := next_duration
    paces_analyzed := drift_results.map Prod.fst
    notes := notes }

/-- Python `str.split(sep)` for a one-character separator, over the
character list: splits at every occurrence of the separator and keeps
empty fields (`"".split(':') == ['']`, `"::".split(':') == ['', '', '']`). -/
def splitOnChar (sep : Char) : List Char → List (List Char)
  | [] => [[]]
  | c :: cs =>
    let r := splitOnChar sep cs
    if c = sep then [] :: r
    else
      match r with
      | [] => [[c]]
      | f :: rest => (c :: f) :: rest

/-- Value of a decimal digit string. -/
def digitsVal (cs : List Char) : ℤ :=
  cs.foldl (fun acc c => 10 * acc + ((c.toNat : ℤ) - 48)) 0

/-- The digits part of `int(s)`: at least one decimal digit. -/
def pythonIntDigits (ds : List Char) : Option ℤ :=
  if ds ≠ [] ∧ ds.all Char.isDigit then some (digitsVal ds) else none

/-- Python `int(s)` on a character list: optional sign followed by at least
one decimal digit; `none` models the `ValueError`.  (CPython additionally
strips surrounding whitespace and accepts underscore grouping and unicode
digits; no property below depends on such inputs.) -/
def pythonInt (cs : List Char) : Option ℤ :=
  match cs with
  | [] => none
  | c :: rest =>
    if c = '-' then (pythonIntDigits rest).map (fun v => -v)
    else if c = '+' then pythonIntDigits rest
    else pythonIntDigits (c :: rest)

/-- Lines 115–125: split on `:` and return `int(parts[0])*60 + int(parts[1])`.
`none` models the exception (an `IndexError` when there are fewer than two
fields, a `ValueError` when either of the first two fields is not an
integer literal); any further fields — the seconds among them — are
discarded, not inspected. -/
def get_minutes_from_duration_string (duration_string : String) : Option ℤ :=
  match splitOnChar ':' duration_string.data with
  | p0 :: p1 :: _ =>
    match pythonInt p0, pythonInt p1 with
    | some a, some b => some (a * 60 + b)
    | _, _ => none
  | _ => none

/-- The `HH:MM:SS` time format of the spec: exactly three `:`-separated
fields of exactly two decimal digits each (as in the spec's example
`01:52:34`). -/
def isHHMMSS (s : String) : Bool :=
  match splitOnChar ':' s.data with
  | [h, m, sec] =>
    h.length = 2 ∧ m.length = 2 ∧ sec.length = 2
      ∧ h.all Char.isDigit ∧ m.all Char.isDigit ∧ sec.all Char.isDigit
  | _ => false

/-- Lines 127–137: read the history (the empty list when the file does not
exist, modelled by `none`), append the decision, write it back.  The
returned list is the persisted collection after the run. -/
def save_decision_to_json (decision : Decision)
    (previous : Option (List Decision)) : List Decision :=
  let history := previous.getD []
  history ++ [decision]

/-! ### Helper lemmas: sorting, grouping and lookup -/

theorem insortQ_perm (x : ℚ) (l : List ℚ) : (insortQ x l).Perm (x :: l) := by
  induction l with
  | nil => exact List.Perm.refl _
  | cons y ys ih =>
    unfold insortQ
    by_cases h : x ≤ y
    · simp [h]
    · simp only [h, if_false]
      exact (ih.cons y).trans (List.Perm.swap x y ys)

theorem sortQ_perm (l : List ℚ) : (sortQ l).Perm l := by
  induction l with
  | nil => exact List.Perm.refl _
  | cons x xs ih => exact (insortQ_perm x (sortQ xs)).trans (ih.cons x)

theorem mem_bucketsOf {q : List Sample} {b : ℚ} :
    b ∈ bucketsOf q ↔ b ∈ q.map Prod.snd := by
  unfold bucketsOf
  rw [(sortQ_perm _).mem_iff, List.mem_dedup]

theorem nodup_bucketsOf (q : List Sample) : (bucketsOf q).Nodup :=
  ((sortQ_perm _).nodup_iff).mpr (List.nodup_dedup _)

theorem mem_hrsInBucket {q : List Sample} {b x : ℚ} :
    x ∈ hrsInBucket q b ↔ ∃ p ∈ q, p.2 = b ∧ p.1 = x := by
  unfold hrsInBucket
  simp only [List.mem_map, List.mem_filter, decide_eq_true_eq]
  constructor
  · rintro ⟨p, ⟨hp, hb⟩, hx⟩; exact ⟨p, hp, hb, hx⟩
  · rintro ⟨p, hp, hb, hx⟩; exact ⟨p, ⟨hp, hb⟩, hx⟩

theorem hrsInBucket_eq_nil {q : List Sample} {b : ℚ} :
    hrsInBucket q b = [] ↔ b ∉ q.map Prod.snd := by
  unfold hrsInBucket
  rw [List.map_eq_nil_iff, List.filter_eq_nil_iff]
  simp only [decide_eq_true_eq, List.mem_map]
  constructor
  · rintro h ⟨p, hp, hb⟩; exact h p hp hb
  · rintro h p hp hb; exact h ⟨p, hp, hb⟩

theorem groupStats_eq_none {tppf : ℕ → ℚ} {rsqrt : ℚ → ℚ} {q : List Sample} {b : ℚ} :
    groupStats tppf rsqrt q b = none ↔ hrsInBucket q b = [] := by
  unfold groupStats
  by_cases h : (hrsInBucket q b).isEmpty
  · simp [h, List.isEmpty_iff.mp h]
  · simp only [h, if_false]
    simp only [List.isEmpty_iff] at h
    simp [h]

theorem lookupKey_filterMap {β : Type} (g : ℚ → Option β) (l : List ℚ)
    (hl : l.Nodup) (b : ℚ) :
    lookupKey b (l.filterMap (fun a => (g a).map (fun s => (a, s)))) =
      if b ∈ l then g b else none := by
  induction l with
  | nil => simp [lookupKey]
  | cons a t ih =>
    obtain ⟨ha, ht⟩ := List.nodup_cons.mp hl
    rw [List.filterMap_cons]
    by_cases hba : b = a
    · subst hba
      cases hga : g b with
      | none =>
        simp only [Option.map_none']
        rw [ih ht]
        simp [ha]
      | some s =>
        simp [lookupKey, hga]
    · cases hga : g a with
      | none =>
        simp only [Option.map_none']
        rw [ih ht]
        simp [hba, Ne.symm hba]
      | some s =>
        simp only [Option.map_some']
        simp only [lookupKey, Ne.symm hba, if_false]
        rw [ih ht]
        simp [hba]

theorem keys_filterMap_sublist {β : Type} (g : ℚ → Option β) (l : List ℚ) :
    ((l.filterMap (fun a => (g a).map (fun s => (a, s)))).map Prod.fst).Sublist l := by
  induction l with
  | nil => simp
  | cons a t ih =>
    rw [List.filterMap_cons]
    cases hga : g a with
    | none => exact ih.cons a
    | some s => simpa using ih.cons₂ a

theorem lookupKey_quarterTable (tppf : ℕ → ℚ) (rsqrt : ℚ → ℚ) (q : List Sample) (b : ℚ) :
    lookupKey b (quarterTable tppf rsqrt q) = (groupStats tppf rsqrt q b).bind passFilter := by
  unfold quarterTable
  rw [lookupKey_filterMap _ _ (nodup_bucketsOf q)]
  by_cases hb : b ∈ bucketsOf q
  · simp [hb]
  · simp only [hb, if_false]
    have : groupStats tppf rsqrt q b = none :=
      groupStats_eq_none.mpr (hrsInBucket_eq_nil.mpr (fun h => hb (mem_bucketsOf.mpr h)))
    simp [this]

theorem quarterTable_keys_nodup (tppf : ℕ → ℚ) (rsqrt : ℚ → ℚ) (q : List Sample) :
    ((quarterTable tppf rsqrt q).map Prod.fst).Nodup :=
  (nodup_bucketsOf q).sublist (keys_filterMap_sublist _ _)

theorem lookupKey_eq_none {β : Type} {t : List (ℚ × β)} {b : ℚ}
    (hb : b ∉ t.map Prod.fst) : lookupKey b t = none := by
  induction t with
  | nil => rfl
  | cons q t ih =>
    simp only [List.map_cons, List.mem_cons] at hb
    push_neg at hb
    simp only [lookupKey, if_neg (Ne.symm hb.1)]
    exact ih hb.2

theorem lookupKey_join {β γ : Type} (f : ℚ → β → Option γ) (t2 : List (ℚ × β))
    (hnd : (t2.map Prod.fst).Nodup) (b : ℚ) :
    lookupKey b (t2.filterMap (fun p => (f p.1 p.2).map (fun r => (p.1, r)))) =
      (lookupKey b t2).bind (fun s => f b s) := by
  induction t2 with
  | nil => simp [lookupKey]
  | cons p t ih =>
    rw [List.map_cons, List.nodup_cons] at hnd
    obtain ⟨hp, ht⟩ := hnd
    rw [List.filterMap_cons]
    by_cases hbp : p.1 = b
    · subst hbp
      cases hf : f p.1 p.2 with
      | none =>
        simp only [Option.map_none']
        rw [ih ht, lookupKey_eq_none hp]
        simp [lookupKey, hf]
      | some r => simp [lookupKey, hf]
    · cases hf : f p.1 p.2 with
      | none =>
        simp only [Option.map_none']
        rw [ih ht]
        simp [lookupKey, hbp]
      | some r =>
        simp only [Option.map_some']
        simp only [lookupKey, hbp, if_false]
        exact ih ht

/-- The drift estimator, re-expressed through the named quarter slices:
the slices taken on lines 31–32 (with `n` the length of the input) are
exactly `quarter2` and `quarter4` of the binned table, whose length equals
the input's. -/
theorem calc_eq_quarters (tppf : ℕ → ℚ) (rsqrt : ℚ → ℚ) (wd : List Sample) :
    calculate_cardiac_drift_in_bins tppf rsqrt wd =
      (quarterTable tppf rsqrt (quarter2 (binSpeeds wd))).filterMap (fun p =>
        (lookupKey p.1 (quarterTable tppf rsqrt (quarter4 (binSpeeds wd)))).map
          (fun s4 => (p.1, mergeStats rsqrt p.2 s4))) := by
  unfold calculate_cardiac_drift_in_bins quarter2 quarter4
  rw [show (binSpeeds wd).length = wd.length from List.length_map _ _]

/-- Master lookup lemma: the final table's entry at bucket `b` is the
filtered second-quarter aggregate joined with the filtered fourth-quarter
aggregate. -/
theorem lookupKey_calc (tppf : ℕ → ℚ) (rsqrt : ℚ → ℚ) (wd : List Sample) (b : ℚ) :
    lookupKey b (calculate_cardiac_drift_in_bins tppf rsqrt wd) =
      ((groupStats tppf rsqrt (quarter2 (binSpeeds wd)) b).bind passFilter).bind
        (fun s2 =>
          ((groupStats tppf rsqrt (quarter4 (binSpeeds wd)) b).bind passFilter).map
            (fun s4 => mergeStats rsqrt s2 s4)) := by
  rw [calc_eq_quarters]
  have hshape :
      (fun p : ℚ × ReliableStats =>
        (lookupKey p.1 (quarterTable tppf rsqrt (quarter4 (binSpeeds wd)))).map
          (fun s4 => (p.1, mergeStats rsqrt p.2 s4))) =
      (fun p : ℚ × ReliableStats =>
        ((lookupKey p.1 (quarterTable tppf rsqrt (quarter4 (binSpeeds wd)))).map
          (fun s4 => mergeStats rsqrt p.2 s4)).map (fun r => (p.1, r))) := by
    funext p
    rw [Option.map_map]
    rfl
  rw [hshape]
  have hj := lookupKey_join
    (fun a s => (lookupKey a (quarterTable tppf rsqrt (quarter4 (binSpeeds wd)))).map
      (fun s4 => mergeStats rsqrt s s4))
    (quarterTable tppf rsqrt (quarter2 (binSpeeds wd)))
    (quarterTable_keys_nodup tppf rsqrt (quarter2 (binSpeeds wd))) b
  refine hj.trans ?_
  simp only [lookupKey_quarterTable]

theorem passFilter_eq_some {s : QuarterStats} {w : ℚ}
    (hw : s.width = some w) (h1 : w < 1) (h25 : 25 < s.count) :
    passFilter s = some ⟨s.mean, s.count, w⟩ := by
  unfold passFilter
  rw [hw]
  simp [h1, h25]

theorem passFilter_isSome {s : QuarterStats} :
    (passFilter s).isSome = true ↔ ∃ w, s.width = some w ∧ w < 1 ∧ 25 < s.count := by
  unfold passFilter
  cases hw : s.width with
  | none => simp
  | some w =>
    by_cases h : w < 1 ∧ 25 < s.count
    · simp [h]
    · simp only [h, if_false]
      simp only [Option.isSome_none, Bool.false_eq_true, false_iff]
      rintro ⟨w', hw', h1, h25⟩
      rw [Option.some_inj] at hw'
      exact h ⟨hw' ▸ h1, h25⟩

/-! ### Helper lemmas: constant heart rates, means and variances -/

theorem listMean_const {xs : List ℚ} {k : ℚ} (hne : xs ≠ [])
    (hall : ∀ x ∈ xs, x = k) : listMean xs = k := by
  unfold listMean
  have hsum : xs.sum = k * xs.length := by
    induction xs with
    | nil => simp
    | cons a t ih =>
      have ha : a = k := hall a (List.mem_cons_self a t)
      by_cases hne' : t = []
      · subst hne'; simp [ha]
      · rw [List.sum_cons, ih hne' (fun x hx => hall x (List.mem_cons_of_mem a hx)), ha,
          List.length_cons]
        push_cast
        ring
  rw [hsum]
  have hlen : (xs.length : ℚ) ≠ 0 := by
    exact_mod_cast (List.length_pos.mpr hne).ne'
  field_simp

theorem sampleVar_const {xs : List ℚ} {k : ℚ} (hall : ∀ x ∈ xs, x = k) :
    sampleVar xs = 0 := by
  unfold sampleVar
  by_cases hne : xs = []
  · subst hne; simp
  · have hm := listMean_const hne hall
    have : (xs.map (fun x => (x - listMean xs) ^ 2)).sum = 0 := by
      apply List.sum_eq_zero
      intro y hy
      obtain ⟨x, hx, hxy⟩ := List.mem_map.mp hy
      rw [← hxy, hall x hx, hm, sub_self]
      ring
    rw [this, zero_div]

theorem ciWidth_const {tppf : ℕ → ℚ} {rsqrt : ℚ → ℚ} {xs : List ℚ} {k : ℚ}
    (h0 : rsqrt 0 = 0) (h2 : 2 ≤ xs.length) (hall : ∀ x ∈ xs, x = k) :
    ciWidth tppf rsqrt xs = some 0 := by
  unfold ciWidth
  rw [if_pos h2, sampleVar_const hall, h0]
  simp

theorem groupStats_const (tppf : ℕ → ℚ) {rsqrt : ℚ → ℚ} {q : List Sample} {b k : ℚ}
    (h0 : rsqrt 0 = 0) (h2 : 2 ≤ (hrsInBucket q b).length)
    (hall : ∀ x ∈ hrsInBucket q b, x = k) :
    groupStats tppf rsqrt q b = some ⟨k, (hrsInBucket q b).length, some 0⟩ := by
  have hne : hrsInBucket q b ≠ [] := by
    intro h
    rw [h] at h2
    exact absurd h2 (by simp)
  unfold groupStats
  rw [if_neg (by simpa [List.isEmpty_iff] using hne)]
  rw [listMean_const hne hall, ciWidth_const h0 h2 hall]

/-! ### Helper lemmas: the weighted average -/

/-- Minimum of a list of rationals (0 for the empty list, which is never
used). -/
def listMinQ : List ℚ → ℚ
  | [] => 0
  | [x] => x
  | x :: y :: t => min x (listMinQ (y :: t))

/-- Maximum of a list of rationals (0 for the empty list, which is never
used). -/
def listMaxQ : List ℚ → ℚ
  | [] => 0
  | [x] => x
  | x :: y :: t => max x (listMaxQ (y :: t))

theorem listMinQ_le {l : List ℚ} {x : ℚ} (hx : x ∈ l) : listMinQ l ≤ x := by
  induction l with
  | nil => cases hx
  | cons a t ih =>
    cases t with
    | nil =>
      rcases List.mem_cons.mp hx with h | h
      · exact le_of_eq (by rw [h, listMinQ])
      · cases h
    | cons b u =>
      rw [listMinQ]
      rcases List.mem_cons.mp hx with h | h
      · exact h ▸ min_le_left _ _
      · exact le_trans (min_le_right _ _) (ih h)

theorem le_listMaxQ {l : List ℚ} {x : ℚ} (hx : x ∈ l) : x ≤ listMaxQ l := by
  induction l with
  | nil => cases hx
  | cons a t ih =>
    cases t with
    | nil =>
      rcases List.mem_cons.mp hx with h | h
      · exact le_of_eq (by rw [h, listMaxQ])
      · cases h
    | cons b u =>
      rw [listMaxQ]
      rcases List.mem_cons.mp hx with h | h
      · exact h ▸ le_max_left _ _
      · exact le_trans (ih h) (le_max_right _ _)

theorem avgDrift_eq_div (rs : List (ℚ × DriftRec)) :
    avgDrift rs =
      (rs.map (fun p => p.2.drift_bpm * (p.2.combined_count : ℚ))).sum / totalCount rs := by
  unfold avgDrift
  induction rs with
  | nil => simp
  | cons p t ih =>
    rw [List.map_cons, List.sum_cons, List.map_cons, List.sum_cons]
    have hterm : ∀ (l : List (ℚ × DriftRec)) (T : ℚ),
        (l.map (fun q => q.2.drift_bpm * ((q.2.combined_count : ℚ) / T))).sum
          = (l.map (fun q => q.2.drift_bpm * (q.2.combined_count : ℚ))).sum / T := by
      intro l T
      induction l with
      | nil => simp
      | cons q u ihh =>
        rw [List.map_cons, List.sum_cons, List.map_cons, List.sum_cons, ihh,
          ← mul_div_assoc, div_add_div_same]
    rw [show (p.2.drift_bpm * ((p.2.combined_count : ℚ) / totalCount (p :: t))
        + (t.map (fun q => q.2.drift_bpm * ((q.2.combined_count : ℚ) / totalCount (p :: t)))).sum)
        = ((p :: t).map (fun q => q.2.drift_bpm * ((q.2.combined_count : ℚ) / totalCount (p :: t)))).sum
      from by rw [List.map_cons, List.sum_cons], hterm (p :: t) (totalCount (p :: t))]
    rw [List.map_cons, List.sum_cons]

theorem totalCount_nonneg (rs : List (ℚ × DriftRec)) : 0 ≤ totalCount rs := by
  unfold totalCount
  apply List.sum_nonneg
  intro x hx
  obtain ⟨p, _, hpx⟩ := List.mem_map.mp hx
  rw [← hpx]
  positivity

theorem totalCount_pos {rs : List (ℚ × DriftRec)} (hne : rs ≠ [])
    (hpos : ∀ p ∈ rs, 0 < p.2.combined_count) : 0 < totalCount rs := by
  cases rs with
  | nil => exact absurd rfl hne
  | cons p t =>
    unfold totalCount
    rw [List.map_cons, List.sum_cons]
    have h1 : (1 : ℚ) ≤ (p.2.combined_count : ℚ) := by
      exact_mod_cast hpos p (List.mem_cons_self p t)
    have h2 : 0 ≤ (t.map (fun q => (q.2.combined_count : ℚ))).sum := by
      apply List.sum_nonneg
      intro x hx
      obtain ⟨q, _, hqx⟩ := List.mem_map.mp hx
      rw [← hqx]
      positivity
    linarith

theorem weighted_sum_le {rs : List (ℚ × DriftRec)} {M : ℚ}
    (h : ∀ p ∈ rs, p.2.drift_bpm ≤ M) :
    (rs.map (fun p => p.2.drift_bpm * (p.2.combined_count : ℚ))).sum ≤ M * totalCount rs := by
  unfold totalCount
  induction rs with
  | nil => simp
  | cons p t ih =>
    rw [List.map_cons, List.sum_cons, List.map_cons, List.sum_cons, mul_add]
    have hp : p.2.drift_bpm * (p.2.combined_count : ℚ) ≤ M * (p.2.combined_count : ℚ) :=
      mul_le_mul_of_nonneg_right (h p (List.mem_cons_self p t)) (by positivity)
    have ht := ih (fun q hq => h q (List.mem_cons_of_mem p hq))
    linarith

theorem le_weighted_sum {rs : List (ℚ × DriftRec)} {m : ℚ}
    (h : ∀ p ∈ rs, m ≤ p.2.drift_bpm) :
    m * totalCount rs ≤ (rs.map (fun p => p.2.drift_bpm * (p.2.combined_count : ℚ))).sum := by
  unfold totalCount
  induction rs with
  | nil => simp
  | cons p t ih =>
    rw [List.map_cons, List.sum_cons, List.map_cons, List.sum_cons, mul_add]
    have hp : m * (p.2.combined_count : ℚ) ≤ p.2.drift_bpm * (p.2.combined_count : ℚ) :=
      mul_le_mul_of_nonneg_right (h p (List.mem_cons_self p t)) (by positivity)
    have ht := ih (fun q hq => h q (List.mem_cons_of_mem p hq))
    linarith

/-! ### Concrete fixtures used by the witnesses -/

/-- A concrete stand-in for the Student-t quantile parameter. -/
def tppfW : ℕ → ℚ := fun _ => 2

/-- A concrete stand-in for the square-root parameter; it satisfies
`rsqrtW 0 = 0`, as the real square root does. -/
def rsqrtW : ℚ → ℚ := fun q => if q = 0 then 0 else 1

/-- A drift-table row with given drift and count. -/
def mkRec (d : ℚ) (c : ℕ) : DriftRec :=
  { drift_bpm := d, drift_pct := 0, combined_width := 0, combined_count := c }

/-- A 104-sample workout at constant speed 10 km/h whose second-quarter
samples (indices 26–51) all have heart rate 140 and whose fourth-quarter
samples (indices 78–103) all have heart rate 150. -/
def wdata : List Sample :=
  List.replicate 26 ((0 : ℚ), (10 : ℚ)) ++ List.replicate 26 ((140 : ℚ), (10 : ℚ))
    ++ List.replicate 26 ((0 : ℚ), (10 : ℚ)) ++ List.replicate 26 ((150 : ℚ), (10 : ℚ))

/-! ### The claims -/

/-- Claim C1 — the claim states that an empty drift table must surface an
explicit "insufficient reliable data" error.  The code does not: the pandas
weighted-average expression on line 71 evaluates to `0.0` over an empty
table (a sum over no rows; the division by the zero total never touches a
row), so `generate_workout_decisions` fabricates an `extend much` decision
with `next_duration_min = duration_min + 10`.  This theorem exhibits that
behaviour at the failing input. -/
theorem c1_empty_table_fabricates_decision :
    avgDrift [] = 0
    ∧ (generate_workout_decisions [] 60 "2024-01-01").decision = "extend much"
    ∧ (generate_workout_decisions [] 60 "2024-01-01").next_duration_min = 70
    ∧ (generate_workout_decisions [] 60 "2024-01-01").avg_drift_bpm = 0 := by
  have h0 : avgDrift ([] : List (ℚ × DriftRec)) = 0 := by simp [avgDrift]
  refine ⟨h0, ?_, ?_, ?_⟩ <;>
    norm_num [generate_workout_decisions, h0, round1, roundHalfEven]

/-- Claim C2: for every drift table and duration, the action and the next
duration follow the ladder — `avg < 3.0` gives `extend much` and `+10`;
`3.0 ≤ avg ≤ 5.0` gives `extend` and `+5`; `5.0 < avg ≤ 8.0` gives
`maintain` and `+0`; `avg > 8.0` gives `reduce` and `−5`, with exactly
these boundaries. -/
theorem c2_decision_ladder (rs : List (ℚ × DriftRec)) (dur : ℤ) (date : String) :
    (avgDrift rs < 3 →
      (generate_workout_decisions rs dur date).decision = "extend much"
        ∧ (generate_workout_decisions rs dur date).next_duration_min = dur + 10)
    ∧ (3 ≤ avgDrift rs ∧ avgDrift rs ≤ 5 →
      (generate_workout_decisions rs dur date).decision = "extend"
        ∧ (generate_workout_decisions rs dur date).next_duration_min = dur + 5)
    ∧ (5 < avgDrift rs ∧ avgDrift rs ≤ 8 →
      (generate_workout_decisions rs dur date).decision = "maintain"
        ∧ (generate_workout_decisions rs dur date).next_duration_min = dur)
    ∧ (8 < avgDrift rs →
      (generate_workout_decisions rs dur date).decision = "reduce"
        ∧ (generate_workout_decisions rs dur date).next_duration_min = dur - 5) := by
  refine ⟨fun h => ?_, fun h => ?_, fun h => ?_, fun h => ?_⟩
  · simp [generate_workout_decisions, h]
  · simp [generate_workout_decisions, not_lt.mpr h.1, h.2]
  · simp [generate_workout_decisions, show ¬ avgDrift rs < 3 by linarith,
      not_le.mpr h.1, h.2]
  · simp [generate_workout_decisions, show ¬ avgDrift rs < 3 by linarith,
      not_le.mpr (show (5 : ℚ) < avgDrift rs by linarith), not_le.mpr h]

/-- Witness for C2: both sides of each boundary.  A single-row table with
count 1 has weighted average equal to its row's drift. -/
theorem c2_decision_ladder_witness :
    ((generate_workout_decisions [(10, mkRec 2 1)] 60 "2024-01-01").decision = "extend much"
      ∧ (generate_workout_decisions [(10, mkRec 2 1)] 60 "2024-01-01").next_duration_min = 60 + 10)
    ∧ ((generate_workout_decisions [(10, mkRec 3 1)] 60 "2024-01-01").decision = "extend"
      ∧ (generate_workout_decisions [(10, mkRec 3 1)] 60 "2024-01-01").next_duration_min = 60 + 5)
    ∧ ((generate_workout_decisions [(10, mkRec 5 1)] 60 "2024-01-01").decision = "extend"
      ∧ (generate_workout_decisions [(10, mkRec 5 1)] 60 "2024-01-01").next_duration_min = 60 + 5)
    ∧ ((generate_workout_decisions [(10, mkRec 8 1)] 60 "2024-01-01").decision = "maintain"
      ∧ (generate_workout_decisions [(10, mkRec 8 1)] 60 "2024-01-01").next_duration_min = 60)
    ∧ ((generate_workout_decisions [(10, mkRec 9 1)] 60 "2024-01-01").decision = "reduce"
      ∧ (generate_workout_decisions [(10, mkRec 9 1)] 60 "2024-01-01").next_duration_min = 60 - 5) :=
  ⟨(c2_decision_ladder [(10, mkRec 2 1)] 60 "2024-01-01").1
      (by norm_num [avgDrift, totalCount, mkRec]),
    (c2_decision_ladder [(10, mkRec 3 1)] 60 "2024-01-01").2.1
      ⟨by norm_num [avgDrift, totalCount, mkRec], by norm_num [avgDrift, totalCount, mkRec]⟩,
    (c2_decision_ladder [(10, mkRec 5 1)] 60 "2024-01-01").2.1
      ⟨by norm_num [avgDrift, totalCount, mkRec], by norm_num [avgDrift, totalCount, mkRec]⟩,
    (c2_decision_ladder [(10, mkRec 8 1)] 60 "2024-01-01").2.2.1
      ⟨by norm_num [avgDrift, totalCount, mkRec], by norm_num [avgDrift, totalCount, mkRec]⟩,
    (c2_decision_ladder [(10, mkRec 9 1)] 60 "2024-01-01").2.2.2
      (by norm_num [avgDrift, totalCount, mkRec])⟩

/-- Claim C10: with average drift above 8 the recommended duration is
always the current duration minus 5 — never clamped, even below zero. -/
theorem c10_no_duration_clamp (rs : List (ℚ × DriftRec)) (dur : ℤ) (date : String)
    (h : 8 < avgDrift rs) :
    (generate_workout_decisions rs dur date).decision = "reduce"
      ∧ (generate_workout_decisions rs dur date).next_duration_min = dur - 5 := by
  simp [generate_workout_decisions, show ¬ avgDrift rs < 3 by linarith,
    not_le.mpr (show (5 : ℚ) < avgDrift rs by linarith), not_le.mpr h]

/-- Witness for C10: duration 3 min with drift 9 bpm is sent to −2 min. -/
theorem c10_no_duration_clamp_witness :
    (generate_workout_decisions [(10, mkRec 9 30)] 3 "2024-01-01").decision = "reduce"
      ∧ (generate_workout_decisions [(10, mkRec 9 30)] 3 "2024-01-01").next_duration_min = -2 :=
  c10_no_duration_clamp [(10, mkRec 9 30)] 3 "2024-01-01"
    (by norm_num [avgDrift, totalCount, mkRec])

/-- Bucket `b` is judged reliable in quarter `q`: it has samples there, its
confidence-interval width is an actual number strictly below 1 bpm, and its
sample count exceeds 25 (line 48's filter). -/
def reliableIn (tppf : ℕ → ℚ) (rsqrt : ℚ → ℚ) (q : List Sample) (b : ℚ) : Prop :=
  ∃ s w, groupStats tppf rsqrt q b = some s ∧ s.width = some w ∧ w < 1 ∧ 25 < s.count

theorem reliableIn_iff_isSome {tppf : ℕ → ℚ} {rsqrt : ℚ → ℚ} {q : List Sample} {b : ℚ} :
    reliableIn tppf rsqrt q b ↔
      (((groupStats tppf rsqrt q b).bind passFilter).isSome = true) := by
  unfold reliableIn
  cases hg : groupStats tppf rsqrt q b with
  | none => simp
  | some s =>
    rw [Option.some_bind, passFilter_isSome]
    simp

/-- Claim C3: a bucket appears in the final drift table iff in BOTH the
second-quarter and fourth-quarter aggregates it has confidence-interval
width strictly below 1 and sample count strictly above 25.  (In particular
a bucket with count ≤ 1 — whose standard deviation, hence width, is
undefined — never appears: `25 < count` is part of the right-hand side,
and an undefined width is `none`, never `some w`.) -/
theorem c3_final_table_membership (tppf : ℕ → ℚ) (rsqrt : ℚ → ℚ)
    (wd : List Sample) (b : ℚ) :
    (lookupKey b (calculate_cardiac_drift_in_bins tppf rsqrt wd)).isSome = true
      ↔ reliableIn tppf rsqrt (quarter2 (binSpeeds wd)) b
        ∧ reliableIn tppf rsqrt (quarter4 (binSpeeds wd)) b := by
  rw [lookupKey_calc, reliableIn_iff_isSome, reliableIn_iff_isSome]
  cases (groupStats tppf rsqrt (quarter2 (binSpeeds wd)) b).bind passFilter with
  | none => simp
  | some s2 =>
    cases (groupStats tppf rsqrt (quarter4 (binSpeeds wd)) b).bind passFilter with
    | none => simp
    | some s4 => simp

/-- Claim C4: for a bucket that passes the reliability filter in both
quarters, the final record is exactly `drift_bpm = late mean − warm mean`,
`drift_pct = drift_bpm / warm mean`, combined width = root-sum-of-squares
of the two widths, combined count = sum of the two counts.  (The record
type `DriftRec` has exactly these four fields, mirroring the projection to
the four columns on line 57.) -/
theorem c4_drift_record (tppf : ℕ → ℚ) (rsqrt : ℚ → ℚ) (wd : List Sample) (b : ℚ)
    (s2 s4 : QuarterStats) (w2 w4 : ℚ)
    (h2 : groupStats tppf rsqrt (quarter2 (binSpeeds wd)) b = some s2)
    (hw2 : s2.width = some w2) (hlt2 : w2 < 1) (hc2 : 25 < s2.count)
    (h4 : groupStats tppf rsqrt (quarter4 (binSpeeds wd)) b = some s4)
    (hw4 : s4.width = some w4) (hlt4 : w4 < 1) (hc4 : 25 < s4.count) :
    lookupKey b (calculate_cardiac_drift_in_bins tppf rsqrt wd) =
      some { drift_bpm := s4.mean - s2.mean
             drift_pct := (s4.mean - s2.mean) / s2.mean
             combined_width := rsqrt (w2 ^ 2 + w4 ^ 2)
             combined_count := s2.count + s4.count } := by
  rw [lookupKey_calc, h2, h4, Option.some_bind, Option.some_bind,
    passFilter_eq_some hw2 hlt2 hc2, passFilter_eq_some hw4 hlt4 hc4,
    Option.some_bind, Option.map_some']
  rfl

/-- Claim C5: the two index ranges the estimator aggregates are exactly
`[n/4, n/2)` and `[3n/4, n)` with floor division (Lean's `Nat` division):
the estimator works on `quarter2`/`quarter4` of the (binned) input, the
`j`-th element of `quarter2` is sample `n/4 + j` as long as
`n/4 + j < n/2`, and the `j`-th element of `quarter4` is sample
`3*n/4 + j` (`getElem?` is `none` past the end, so the fourth quarter
stops exactly at `n`). -/
theorem c5_quarter_index_ranges (tppf : ℕ → ℚ) (rsqrt : ℚ → ℚ) (wd : List Sample) :
    calculate_cardiac_drift_in_bins tppf rsqrt wd =
      (quarterTable tppf rsqrt (quarter2 (binSpeeds wd))).filterMap (fun p =>
        (lookupKey p.1 (quarterTable tppf rsqrt (quarter4 (binSpeeds wd)))).map
          (fun s4 => (p.1, mergeStats rsqrt p.2 s4)))
    ∧ ∀ (l : List Sample) (j : ℕ),
        (quarter2 l).length = l.length / 2 - l.length / 4
        ∧ (l.length / 4 + j < l.length / 2 →
            (quarter2 l)[j]? = l[l.length / 4 + j]?)
        ∧ (¬ l.length / 4 + j < l.length / 2 → (quarter2 l)[j]? = none)
        ∧ (quarter4 l).length = l.length - 3 * l.length / 4
        ∧ (quarter4 l)[j]? = l[3 * l.length / 4 + j]? := by
  refine ⟨calc_eq_quarters tppf rsqrt wd, fun l j => ⟨?_, ?_, ?_, ?_, ?_⟩⟩
  · rw [quarter2, List.length_take, List.length_drop]
    omega
  · intro h
    rw [quarter2, List.getElem?_take, if_pos (by omega : j < l.length / 2 - l.length / 4),
      List.getElem?_drop]
  · intro h
    rw [quarter2, List.getElem?_take,
      if_neg (by omega : ¬ j < l.length / 2 - l.length / 4)]
  · rw [quarter4, List.length_drop]
  · rw [quarter4, List.getElem?_drop]

/-! ### Evaluation of the fixture workout -/

theorem binSpeeds_wdata : binSpeeds wdata = wdata := by
  have hb : bucketOf 10 = 10 := by norm_num [bucketOf]
  simp [binSpeeds, wdata, hb]

theorem wdata_length : wdata.length = 104 := by
  simp [wdata]

theorem quarter2_wdata :
    quarter2 (binSpeeds wdata) = List.replicate 26 (((140 : ℚ), (10 : ℚ)) : Sample) := by
  rw [binSpeeds_wdata, quarter2, wdata_length]
  norm_num
  rw [wdata, List.append_assoc, List.append_assoc,
    List.drop_left' (by simp :
      (List.replicate 26 (((0 : ℚ), (10 : ℚ)) : Sample)).length = 26),
    List.take_left' (by simp :
      (List.replicate 26 (((140 : ℚ), (10 : ℚ)) : Sample)).length = 26)]

theorem quarter4_wdata :
    quarter4 (binSpeeds wdata) = List.replicate 26 (((150 : ℚ), (10 : ℚ)) : Sample) := by
  rw [binSpeeds_wdata, quarter4, wdata_length]
  norm_num
  rw [wdata,
    List.drop_left' (by simp :
      (List.replicate 26 (((0 : ℚ), (10 : ℚ)) : Sample)
        ++ List.replicate 26 ((140 : ℚ), (10 : ℚ))
        ++ List.replicate 26 ((0 : ℚ), (10 : ℚ))).length = 78)]

theorem hrs_replicate (n : ℕ) (k b : ℚ) :
    hrsInBucket (List.replicate n ((k, b) : Sample)) b = List.replicate n k := by
  unfold hrsInBucket
  rw [List.filter_replicate, if_pos (by simp), List.map_replicate]

theorem hrs_wdata_q2 :
    hrsInBucket (quarter2 (binSpeeds wdata)) 10 = List.replicate 26 (140 : ℚ) := by
  rw [quarter2_wdata, hrs_replicate]

theorem hrs_wdata_q4 :
    hrsInBucket (quarter4 (binSpeeds wdata)) 10 = List.replicate 26 (150 : ℚ) := by
  rw [quarter4_wdata, hrs_replicate]

theorem groupStats_wdata_q2 :
    groupStats tppfW rsqrtW (quarter2 (binSpeeds wdata)) 10 = some ⟨140, 26, some 0⟩ := by
  have hall : ∀ x ∈ hrsInBucket (quarter2 (binSpeeds wdata)) 10, x = (140 : ℚ) := by
    rw [hrs_wdata_q2]
    intro x hx
    exact List.eq_of_mem_replicate hx
  have h := groupStats_const tppfW (by simp [rsqrtW] : rsqrtW 0 = 0)
    (by rw [hrs_wdata_q2]; simp) hall
  rw [h, hrs_wdata_q2]
  simp

theorem groupStats_wdata_q4 :
    groupStats tppfW rsqrtW (quarter4 (binSpeeds wdata)) 10 = some ⟨150, 26, some 0⟩ := by
  have hall : ∀ x ∈ hrsInBucket (quarter4 (binSpeeds wdata)) 10, x = (150 : ℚ) := by
    rw [hrs_wdata_q4]
    intro x hx
    exact List.eq_of_mem_replicate hx
  have h := groupStats_const tppfW (by simp [rsqrtW] : rsqrtW 0 = 0)
    (by rw [hrs_wdata_q4]; simp) hall
  rw [h, hrs_wdata_q4]
  simp

/-- Witness for C4: in the fixture workout, bucket 10 km/h passes the
filter in both quarters (widths 0, counts 26) and its final record is
exactly the one the claim computes. -/
theorem c4_drift_record_witness :
    lookupKey 10 (calculate_cardiac_drift_in_bins tppfW rsqrtW wdata) =
      some { drift_bpm := (150 : ℚ) - 140
             drift_pct := ((150 : ℚ) - 140) / 140
             combined_width := rsqrtW (0 ^ 2 + 0 ^ 2)
             combined_count := 26 + 26 } :=
  c4_drift_record tppfW rsqrtW wdata 10 ⟨140, 26, some 0⟩ ⟨150, 26, some 0⟩ 0 0
    groupStats_wdata_q2 rfl (by norm_num) (by norm_num)
    groupStats_wdata_q4 rfl (by norm_num) (by norm_num)

/-- Claim C8: if within each quarter every sample of bucket `b` has the
same heart rate, the bucket's sample variance is 0 in each quarter, its
confidence-interval width is exactly `some 0` (so with counts above 25 it
passes the `< 1` filter), and its final drift is exactly the difference of
the two constant means, with combined width 0. -/
theorem c8_constant_hr (tppf : ℕ → ℚ) (rsqrt : ℚ → ℚ) (wd : List Sample) (b k2 k4 : ℚ)
    (h0 : rsqrt 0 = 0)
    (hq2 : ∀ p ∈ quarter2 (binSpeeds wd), p.2 = b → p.1 = k2)
    (hq4 : ∀ p ∈ quarter4 (binSpeeds wd), p.2 = b → p.1 = k4)
    (hc2 : 25 < (hrsInBucket (quarter2 (binSpeeds wd)) b).length)
    (hc4 : 25 < (hrsInBucket (quarter4 (binSpeeds wd)) b).length) :
    sampleVar (hrsInBucket (quarter2 (binSpeeds wd)) b) = 0
    ∧ sampleVar (hrsInBucket (quarter4 (binSpeeds wd)) b) = 0
    ∧ groupStats tppf rsqrt (quarter2 (binSpeeds wd)) b
        = some ⟨k2, (hrsInBucket (quarter2 (binSpeeds wd)) b).length, some 0⟩
    ∧ groupStats tppf rsqrt (quarter4 (binSpeeds wd)) b
        = some ⟨k4, (hrsInBucket (quarter4 (binSpeeds wd)) b).length, some 0⟩
    ∧ lookupKey b (calculate_cardiac_drift_in_bins tppf rsqrt wd)
        = some { drift_bpm := k4 - k2
                 drift_pct := (k4 - k2) / k2
                 combined_width := 0
                 combined_count := (hrsInBucket (quarter2 (binSpeeds wd)) b).length
                   + (hrsInBucket (quarter4 (binSpeeds wd)) b).length } := by
  have hall2 : ∀ x ∈ hrsInBucket (quarter2 (binSpeeds wd)) b, x = k2 := by
    intro x hx
    obtain ⟨p, hp, hpb, hpx⟩ := mem_hrsInBucket.mp hx
    exact hpx ▸ hq2 p hp hpb
  have hall4 : ∀ x ∈ hrsInBucket (quarter4 (binSpeeds wd)) b, x = k4 := by
    intro x hx
    obtain ⟨p, hp, hpb, hpx⟩ := mem_hrsInBucket.mp hx
    exact hpx ▸ hq4 p hp hpb
  have hg2 := groupStats_const tppf h0 (by omega) hall2
  have hg4 := groupStats_const tppf h0 (by omega) hall4
  refine ⟨sampleVar_const hall2, sampleVar_const hall4, hg2, hg4, ?_⟩
  rw [lookupKey_calc, hg2, hg4, Option.some_bind, Option.some_bind,
    passFilter_eq_some rfl (by norm_num) hc2,
    passFilter_eq_some rfl (by norm_num) hc4,
    Option.some_bind, Option.map_some']
  simp only [mergeStats, Option.some_inj]
  have : (0 : ℚ) ^ 2 + 0 ^ 2 = 0 := by norm_num
  rw [this, h0]

/-- Witness for C8: the fixture workout, bucket 10, heart rates constantly
140 in the second quarter and 150 in the fourth. -/
theorem c8_constant_hr_witness :
    sampleVar (hrsInBucket (quarter2 (binSpeeds wdata)) 10) = 0
    ∧ sampleVar (hrsInBucket (quarter4 (binSpeeds wdata)) 10) = 0
    ∧ groupStats tppfW rsqrtW (quarter2 (binSpeeds wdata)) 10
        = some ⟨140, (hrsInBucket (quarter2 (binSpeeds wdata)) 10).length, some 0⟩
    ∧ groupStats tppfW rsqrtW (quarter4 (binSpeeds wdata)) 10
        = some ⟨150, (hrsInBucket (quarter4 (binSpeeds wdata)) 10).length, some 0⟩
    ∧ lookupKey 10 (calculate_cardiac_drift_in_bins tppfW rsqrtW wdata)
        = some { drift_bpm := (150 : ℚ) - 140
                 drift_pct := ((150 : ℚ) - 140) / 140
                 combined_width := 0
                 combined_count := (hrsInBucket (quarter2 (binSpeeds wdata)) 10).length
                   + (hrsInBucket (quarter4 (binSpeeds wdata)) 10).length } := by
  apply c8_constant_hr tppfW rsqrtW wdata 10 140 150
  · simp [rsqrtW]
  · rw [quarter2_wdata]
    intro p hp _
    rw [List.eq_of_mem_replicate hp]
  · rw [quarter4_wdata]
    intro p hp _
    rw [List.eq_of_mem_replicate hp]
  · rw [hrs_wdata_q2]
    simp
  · rw [hrs_wdata_q4]
    simp

/-! ### Duration parsing (claim C6) -/

theorem pythonInt_digits {cs : List Char} (hne : cs ≠ [])
    (hd : cs.all Char.isDigit = true) : pythonInt cs = some (digitsVal cs) := by
  cases cs with
  | nil => exact absurd rfl hne
  | cons c rest =>
    have hc : c.isDigit = true := by
      rw [List.all_cons] at hd
      exact ((Bool.and_eq_true _ _).mp hd).1
    have hcm : ¬ c = '-' := by
      intro h
      rw [h] at hc
      exact absurd hc (by decide)
    have hcp : ¬ c = '+' := by
      intro h
      rw [h] at hc
      exact absurd hc (by decide)
    simp only [pythonInt, if_neg hcm, if_neg hcp, pythonIntDigits]
    rw [if_pos ⟨by simp, hd⟩]

/-- Claim C6, counterexample to the second half of the claim: `"7:5"` does
not match the `HH:MM:SS` time format, yet the function returns `425`
rather than raising a parsing failure. -/
theorem c6_counterexample :
    get_minutes_from_duration_string "7:5" = some 425 ∧ isHHMMSS "7:5" = false := by
  constructor
  · decide
  · decide

/-- Claim C6, amended: any string whose first two `:`-separated fields are
digit strings parses to `field₀ × 60 + field₁` — seconds and any further
fields are discarded.  `HH:MM:SS` strings are the special case with three
two-digit fields; the function does not reject other shapes (see the
counterexample), and fails only when there are fewer than two fields or a
field among the first two is not an integer literal. -/
theorem c6_amended_duration_parse (s : String) (p0 p1 : List Char)
    (ps : List (List Char))
    (hsplit : splitOnChar ':' s.data = p0 :: p1 :: ps)
    (h0 : p0 ≠ []) (h0d : p0.all Char.isDigit = true)
    (h1 : p1 ≠ []) (h1d : p1.all Char.isDigit = true) :
    get_minutes_from_duration_string s = some (digitsVal p0 * 60 + digitsVal p1) := by
  simp only [get_minutes_from_duration_string, hsplit,
    pythonInt_digits h0 h0d, pythonInt_digits h1 h1d]

/-- Witness for C6 (the spec's example): `"01:52:34"` parses to exactly
112 minutes, the seconds truncated. -/
theorem c6_amended_duration_parse_witness :
    get_minutes_from_duration_string "01:52:34" = some 112 :=
  c6_amended_duration_parse "01:52:34" ['0', '1'] ['5', '2'] [['3', '4']]
    (by decide) (by decide) (by decide) (by decide) (by decide)

/-! ### The weighted average (claim C7) -/

/-- Claim C7: for a non-empty drift table with positive counts, the
weighted average of line 71 equals `Σ(drift·count) / Σcount` and lies
between the smallest and the largest bucket drift. -/
theorem c7_weighted_average (rs : List (ℚ × DriftRec)) (hne : rs ≠ [])
    (hpos : ∀ p ∈ rs, 0 < p.2.combined_count) :
    avgDrift rs
        = (rs.map (fun p => p.2.drift_bpm * (p.2.combined_count : ℚ))).sum / totalCount rs
    ∧ listMinQ (rs.map (fun p => p.2.drift_bpm)) ≤ avgDrift rs
    ∧ avgDrift rs ≤ listMaxQ (rs.map (fun p => p.2.drift_bpm)) := by
  have hT := totalCount_pos hne hpos
  refine ⟨avgDrift_eq_div rs, ?_, ?_⟩
  · rw [avgDrift_eq_div, le_div_iff₀ hT]
    have h : listMinQ (rs.map (fun q => q.2.drift_bpm)) * totalCount rs
        ≤ (rs.map (fun p => p.2.drift_bpm * (p.2.combined_count : ℚ))).sum :=
      le_weighted_sum (fun p hp => listMinQ_le (List.mem_map_of_mem _ hp))
    linarith
  · rw [avgDrift_eq_div, div_le_iff₀ hT]
    have h : (rs.map (fun p => p.2.drift_bpm * (p.2.combined_count : ℚ))).sum
        ≤ listMaxQ (rs.map (fun q => q.2.drift_bpm)) * totalCount rs :=
      weighted_sum_le (fun p hp => le_listMaxQ (List.mem_map_of_mem _ hp))
    linarith

/-- Witness for C7: a two-bucket table with drifts 2 and 4 and counts 30
and 10 — the weighted average 2.5 lies between them. -/
theorem c7_weighted_average_witness :
    avgDrift [(10, mkRec 2 30), (21/2, mkRec 4 10)]
        = ([(10, mkRec 2 30), ((21 : ℚ)/2, mkRec 4 10)].map
            (fun p => p.2.drift_bpm * (p.2.combined_count : ℚ))).sum
          / totalCount [(10, mkRec 2 30), (21/2, mkRec 4 10)]
    ∧ listMinQ ([(10, mkRec 2 30), ((21 : ℚ)/2, mkRec 4 10)].map (fun p => p.2.drift_bpm))
        ≤ avgDrift [(10, mkRec 2 30), (21/2, mkRec 4 10)]
    ∧ avgDrift [(10, mkRec 2 30), (21/2, mkRec 4 10)]
        ≤ listMaxQ ([(10, mkRec 2 30), ((21 : ℚ)/2, mkRec 4 10)].map
            (fun p => p.2.drift_bpm)) :=
  c7_weighted_average [(10, mkRec 2 30), (21/2, mkRec 4 10)] (by simp)
    (by intro p hp; rcases List.mem_cons.mp hp with h | h
        · rw [h]; norm_num [mkRec]
        · rw [List.mem_singleton.mp h]; norm_num [mkRec])

/-! ### Persistence (claim C9) -/

/-- Claim C9: a save appends exactly one record at the end and leaves every
previously stored entry unchanged; an empty history yields a one-element
collection, a second save a two-element collection whose first entry is
undisturbed. -/
theorem c9_save_appends (h : List Decision) (d d1 d2 : Decision) :
    save_decision_to_json d (some h) = h ++ [d]
    ∧ (save_decision_to_json d (some h)).length = h.length + 1
    ∧ (∀ i, i < h.length → (save_decision_to_json d (some h))[i]? = h[i]?)
    ∧ save_decision_to_json d1 none = [d1]
    ∧ save_decision_to_json d2 (some (save_decision_to_json d1 none)) = [d1, d2] := by
  refine ⟨rfl, by simp [save_decision_to_json], fun i hi => ?_, rfl, rfl⟩
  simp [save_decision_to_json, List.getElem?_append_left hi]

end Zone2
